import Mathlib

/-!
Verification of the autocomplete query-resolution pipeline
(`src/main.rs` of Tarrgon/autocompleted).

Strings are embedded as `List Char` (Unicode scalar values, matching
Rust `char`); Rust `str::len` counts UTF-8 bytes, embedded as `utf8Len`.
Rust `str::replace` (leftmost, non-overlapping) is embedded as
`rustReplace`. The external collaborators (Postgres client, moka cache,
connection pool, serde serialization, the unicode library functions) are
embedded as explicit parameters or as concrete functions restricted to
the characters exercised here; each such definition documents what it
models.
-/

/-- Strings as lists of Unicode scalar values (Rust `char`s). -/
abbrev Str := List Char

/-- Convenience conversion from Lean string literals. -/
def toChars (s : String) : Str := s.toList

/-- UTF-8 byte length of a string; Rust `str::len` counts bytes, so this
embeds the `tag.len()` calls in `validate_transform_tag`. -/
def utf8Len (s : Str) : Nat := (s.map Char.utf8Size).sum

/-- Fuel-indexed worker for `rustReplace`; structural recursion on the
fuel keeps the definition kernel-reducible. With fuel at least the
length of the string the fuel never runs out. -/
def rustReplaceFuel (pat repl : Str) : Nat → Str → Str
  | _, [] => []
  | 0, s => s
  | fuel + 1, c :: rest =>
    if pat ≠ [] ∧ pat.isPrefixOf (c :: rest) then
      repl ++ rustReplaceFuel pat repl fuel (List.drop (pat.length - 1) rest)
    else
      c :: rustReplaceFuel pat repl fuel rest

/-- Embedding of Rust `str::replace(pat, repl)`: replace every leftmost,
non-overlapping occurrence of `pat` by `repl`, scanning left to right. -/
def rustReplace (pat repl s : Str) : Str :=
  rustReplaceFuel pat repl s.length s

/-- Models Rust `char::is_whitespace`, i.e. the Unicode `White_Space`
property; the property holds for exactly these 25 code points. -/
def rustIsWhitespace (c : Char) : Bool :=
  let n := c.toNat
  decide ((0x9 ≤ n ∧ n ≤ 0xD) ∨ n = 0x20 ∨ n = 0x85 ∨ n = 0xA0 ∨ n = 0x1680 ∨
    (0x2000 ≤ n ∧ n ≤ 0x200A) ∨ n = 0x2028 ∨ n = 0x2029 ∨ n = 0x202F ∨
    n = 0x205F ∨ n = 0x3000)

/-- Models Rust `char`-level lowercasing as used by `str::to_lowercase`,
for the characters exercised in this development: ASCII `A`-`Z` map to
`a`-`z`, `Ô` (U+00D4) maps to `ô` (U+00F4), every other character maps
to itself. (The rare one-to-many SpecialCasing expansions concern none
of these characters.) -/
def rustLowerChar (c : Char) : Str :=
  if 'A' ≤ c ∧ c ≤ 'Z' then [Char.ofNat (c.toNat + 32)]
  else if c = 'Ô' then ['ô']
  else [c]

/-- Models Rust `str::to_lowercase`: concatenation of the per-character
lowercasings. -/
def rustToLowercase (s : Str) : Str := s.flatMap rustLowerChar

/-- Canonical-composition table modelling the `unicode-normalization`
crate's `nfc()` for the characters exercised here: `o` followed by the
combining circumflex U+0302 composes to `ô` (U+00F4); no other pair in
these inputs composes. -/
def nfcCompose : Char → Char → Option Char
  | 'o', c => if c = '̂' then some 'ô' else none
  | _, _ => none

/-- Fuel-indexed worker for `rustNfc`; each step consumes one character,
so fuel equal to the length of the string never runs out. -/
def rustNfcFuel : Nat → Str → Str
  | _, [] => []
  | _, [a] => [a]
  | 0, s => s
  | fuel + 1, a :: b :: rest =>
    match nfcCompose a b with
    | some c => rustNfcFuel fuel (c :: rest)
    | none => a :: rustNfcFuel fuel (b :: rest)

/-- Models `nfc()` of the `unicode-normalization` crate: left-to-right
canonical composition using `nfcCompose`; characters outside the table
are NFC-invariant and passed through. -/
def rustNfc (s : Str) : Str := rustNfcFuel s.length s

/-- The error enum `AutocompleteError` from `src/main.rs`. -/
inductive AutocompleteError where
  | BadRequest
  | ServerError
deriving DecidableEq, Repr

/-- Embedding of `validate_transform_tag` from `src/main.rs`: reject if
the raw byte length exceeds 100 or is below 3, then apply NFC,
lowercase, `replace("*", "")`, `replace("%", "")`, and drop whitespace
characters. -/
def validate_transform_tag (tag : Str) : Except AutocompleteError Str :=
  if utf8Len tag > 100 then .error .BadRequest
  else if utf8Len tag < 3 then .error .BadRequest
  else .ok (List.filter (fun x => !rustIsWhitespace x)
    (rustReplace ['%'] [] (rustReplace ['*'] [] (rustToLowercase (rustNfc tag)))))

/-- Embedding of `db::escape_like` from `src/main.rs`:
`replace("%", "\\%").replace("_", "\\_").replace("*", "%").replace("\\*", "*")`. -/
def escape_like (stuff : Str) : Str :=
  rustReplace ['\\', '*'] ['*']
    (rustReplace ['*'] ['%']
      (rustReplace ['_'] ['\\', '_']
        (rustReplace ['%'] ['\\', '%'] stuff)))

/-- The tag record `models::Tag` from `src/main.rs` (`i32`, `i16` and
`String` fields embedded as `Int` and `Str`). -/
structure Tag where
  id : Int
  name : Str
  post_count : Int
  category : Int
  antecedent_name : Option Str
deriving DecidableEq, Repr

/-- Opaque stand-in for `tokio_postgres::Error`: the claims never
inspect the error payload, only whether a backend call failed. -/
inductive PgError where
  | failure
deriving DecidableEq, Repr

/-- A query issued by `db::get_tags` through the borrowed connection:
the `set statement_timeout = 3000` directive, the Tier-A query with its
escaped pattern argument, or the Tier-B query with the canonical key. -/
inductive Query where
  | setTimeout
  | tierA (pat : Str)
  | tierB (key : Str)
deriving DecidableEq, Repr

/-- The backend, as seen through a borrowed connection: the outcome of
the statement-timeout directive and, for each parameter value, the rows
(or error) that the Tier-A and Tier-B prepared statements
(`sql/fetch_tags_a.sql`, `sql/fetch_tags_b.sql`, not under `src/`)
would return. Prepare and execute failures are collapsed into the one
`Except`. -/
structure DB where
  setTimeout : Except PgError Unit
  tierA : Str → Except PgError (List Tag)
  tierB : Str → Except PgError (List Tag)

/-- Embedding of `db::get_tags` from `src/main.rs`: set the statement
timeout, run Tier A on `escape_like(tag_prefix + "*")`, return its rows
if nonempty, otherwise run Tier B on the key directly. Alongside the
result it returns the list of queries issued, in order, so that
theorems can speak about which tiers were consulted. -/
def get_tags (db : DB) (tagKey : Str) : Except PgError (List Tag) × List Query :=
  let escapedPat := escape_like (tagKey ++ ['*'])
  match db.setTimeout with
  | .error e => (.error e, [.setTimeout])
  | .ok _ =>
    match db.tierA escapedPat with
    | .error e => (.error e, [.setTimeout, .tierA escapedPat])
    | .ok rows =>
      if rows.length > 0 then
        (.ok rows, [.setTimeout, .tierA escapedPat])
      else
        match db.tierB tagKey with
        | .error e => (.error e, [.setTimeout, .tierA escapedPat, .tierB tagKey])
        | .ok rows2 => (.ok rows2, [.setTimeout, .tierA escapedPat, .tierB tagKey])

/-- The environment one request of the `autocomplete` handler runs in:
the current cache contents (`moka` `Cache::get`, with an expired entry
already reported as absent), the outcome of the pool checkout
(`data.pool.get()`), the backend reachable through the borrowed
connection, and `serde_json::to_string` on a record list (`none`
modelling a serialization error). -/
structure Env where
  cache : Str → Option Str
  pool : Except PgError Unit
  db : DB
  serialize : List Tag → Option Str

/-- Everything observable about one run of the `autocomplete` handler:
the HTTP outcome (`Ok` body or error), which cache keys were read, how
many pool checkouts were attempted, which backend queries were issued,
which cache writes happened, and the cache contents afterwards. -/
structure ResolveResult where
  outcome : Except AutocompleteError Str
  cacheReads : List Str
  poolGets : Nat
  queries : List Query
  cacheWrites : List (Str × Str)
  cacheAfter : Str → Option Str

/-- Embedding of the `autocomplete` handler from `src/main.rs`:
validate and transform the raw parameter, consult the cache, on a hit
answer from the cached body, on a miss check out a connection, run
`db::get_tags`, serialize (substituting `"[]"` on serialization
failure), insert into the cache and answer with the serialized body.
Pool or query errors become `ServerError`. -/
def autocomplete (env : Env) (raw : Str) : ResolveResult :=
  match validate_transform_tag raw with
  | .error e =>
    { outcome := .error e, cacheReads := [], poolGets := 0, queries := [],
      cacheWrites := [], cacheAfter := env.cache }
  | .ok key =>
    match env.cache key with
    | some body =>
      { outcome := .ok body, cacheReads := [key], poolGets := 0, queries := [],
        cacheWrites := [], cacheAfter := env.cache }
    | none =>
      match env.pool with
      | .error _ =>
        { outcome := .error .ServerError, cacheReads := [key], poolGets := 1,
          queries := [], cacheWrites := [], cacheAfter := env.cache }
      | .ok _ =>
        match get_tags env.db key with
        | (.error _, qs) =>
          { outcome := .error .ServerError, cacheReads := [key], poolGets := 1,
            queries := qs, cacheWrites := [], cacheAfter := env.cache }
        | (.ok results, qs) =>
          let serialized := (env.serialize results).getD (toChars "[]")
          { outcome := .ok serialized, cacheReads := [key], poolGets := 1,
            queries := qs, cacheWrites := [(key, serialized)],
            cacheAfter := fun k => if k = key then some serialized else env.cache k }

/-- Whether `validate_transform_tag` accepts the raw input. -/
def isAccepted (s : Str) : Bool :=
  match validate_transform_tag s with
  | .ok _ => true
  | .error _ => false

/-- A concrete tag record used in witnesses. -/
def tagStub : Tag :=
  { id := 1, name := toChars "cat", post_count := 5, category := 0,
    antecedent_name := none }

/-- A backend where both tiers succeed and return no rows. -/
def dbStub : DB :=
  { setTimeout := .ok (), tierA := fun _ => .ok [], tierB := fun _ => .ok [] }

/-- A backend where Tier A finds nothing and Tier B finds `tagStub`. -/
def dbTierB : DB :=
  { dbStub with tierB := fun _ => .ok [tagStub] }

/-- An environment with an empty cache, a healthy pool and `dbStub`. -/
def envStub : Env :=
  { cache := fun _ => none, pool := .ok (), db := dbStub,
    serialize := fun _ => some (toChars "[]") }

/-- An environment whose cache holds a body for the key `cat`. -/
def envHit : Env :=
  { envStub with
    cache := fun k => if k = toChars "cat" then some (toChars "[1]") else none }

/-- An environment whose serializer always fails. -/
def envSerFail : Env :=
  { envStub with serialize := fun _ => none }

/-- Every character of a replacement result comes from the input string
or from the replacement text. -/
theorem mem_of_mem_rustReplaceFuel (pat repl : Str) (x : Char) :
    ∀ (fuel : Nat) (s : Str), x ∈ rustReplaceFuel pat repl fuel s → x ∈ s ∨ x ∈ repl := by
  intro fuel
  induction fuel with
  | zero =>
    intro s h
    cases s with
    | nil => simp [rustReplaceFuel] at h
    | cons c rest => exact Or.inl (by simpa [rustReplaceFuel] using h)
  | succ n ih =>
    intro s h
    cases s with
    | nil => simp [rustReplaceFuel] at h
    | cons c rest =>
      simp only [rustReplaceFuel] at h
      split at h
      · rcases List.mem_append.mp h with hx | hx
        · exact Or.inr hx
        · rcases ih _ hx with hx' | hx'
          · exact Or.inl (List.mem_cons_of_mem _ (List.mem_of_mem_drop hx'))
          · exact Or.inr hx'
      · rcases List.mem_cons.mp h with hx | hx
        · exact Or.inl (hx ▸ List.mem_cons_self _ _)
        · rcases ih _ hx with hx' | hx'
          · exact Or.inl (List.mem_cons_of_mem _ hx')
          · exact Or.inr hx'

/-- Every character of `rustReplace pat repl s` comes from `s` or from
`repl`. -/
theorem mem_of_mem_rustReplace (pat repl s : Str) (x : Char)
    (h : x ∈ rustReplace pat repl s) : x ∈ s ∨ x ∈ repl :=
  mem_of_mem_rustReplaceFuel pat repl x s.length s h

/-- Replacing the single-character pattern `[c]` with a replacement not
containing `c` removes every occurrence of `c` (given enough fuel). -/
theorem not_mem_rustReplaceFuel_single (c : Char) (repl : Str) (hc : c ∉ repl) :
    ∀ (fuel : Nat) (s : Str), s.length ≤ fuel → c ∉ rustReplaceFuel [c] repl fuel s := by
  intro fuel
  induction fuel with
  | zero =>
    intro s hs
    have : s = [] := List.length_eq_zero.mp (Nat.le_zero.mp hs)
    subst this
    simp [rustReplaceFuel]
  | succ n ih =>
    intro s hs
    cases s with
    | nil => simp [rustReplaceFuel]
    | cons a rest =>
      simp only [rustReplaceFuel]
      split
      · next hmatch =>
        have ha : a = c := by
          have := hmatch.2
          simp [List.isPrefixOf] at this
          exact this.symm
        intro hmem
        rcases List.mem_append.mp hmem with hx | hx
        · exact hc hx
        · exact ih rest (by simpa using Nat.le_of_succ_le_succ hs)
            (by simpa using hx)
      · next hmatch =>
        have ha : a ≠ c := by
          intro hac
          exact hmatch ⟨by simp, by simp [List.isPrefixOf, hac]⟩
        intro hmem
        rcases List.mem_cons.mp hmem with hx | hx
        · exact ha hx.symm
        · exact ih rest (Nat.le_of_succ_le_succ hs) hx

/-- Replacing `[c]` with a replacement not containing `c` removes every
occurrence of `c`. -/
theorem not_mem_rustReplace_single (c : Char) (repl s : Str) (hc : c ∉ repl) :
    c ∉ rustReplace [c] repl s :=
  not_mem_rustReplaceFuel_single c repl hc s.length s (Nat.le_refl _)

/-- Replacing the two-character pattern `[a, b]` in a string that does
not contain `b` is the identity (given enough fuel): the pattern can
never match. -/
theorem rustReplaceFuel_pair_id (a b : Char) (repl : Str) :
    ∀ (fuel : Nat) (s : Str), s.length ≤ fuel → b ∉ s →
      rustReplaceFuel [a, b] repl fuel s = s := by
  intro fuel
  induction fuel with
  | zero =>
    intro s hs _
    have : s = [] := List.length_eq_zero.mp (Nat.le_zero.mp hs)
    subst this
    simp [rustReplaceFuel]
  | succ n ih =>
    intro s hs hb
    cases s with
    | nil => simp [rustReplaceFuel]
    | cons c rest =>
      simp only [rustReplaceFuel]
      rw [if_neg]
      · rw [ih rest (Nat.le_of_succ_le_succ hs) (fun h => hb (List.mem_cons_of_mem _ h))]
      · rintro ⟨-, hpre⟩
        cases rest with
        | nil => simp [List.isPrefixOf] at hpre
        | cons d rest' =>
          simp [List.isPrefixOf] at hpre
          exact hb (by simp [hpre.2])

/-- Replacing `[a, b]` in a string not containing `b` is the identity. -/
theorem rustReplace_pair_id (a b : Char) (repl s : Str) (hb : b ∉ s) :
    rustReplace [a, b] repl s = s :=
  rustReplaceFuel_pair_id a b repl s.length s (Nat.le_refl _) hb

/-- C1 (amended): acceptance bounds the RAW input's UTF-8 length to
[3, 100]; the canonical key itself can be shorter (see the
counterexample). -/
theorem validate_ok_raw_utf8_bounds (s k : Str)
    (h : validate_transform_tag s = .ok k) : 3 ≤ utf8Len s ∧ utf8Len s ≤ 100 := by
  unfold validate_transform_tag at h
  by_cases h1 : utf8Len s > 100
  · rw [if_pos h1] at h
    exact absurd h (by simp)
  · rw [if_neg h1] at h
    by_cases h2 : utf8Len s < 3
    · rw [if_pos h2] at h
      exact absurd h (by simp)
    · omega

/-- C1 (witness): the raw input `cat` is accepted, so its UTF-8 length
lies in [3, 100]. -/
theorem validate_ok_raw_utf8_bounds_witness :
    3 ≤ utf8Len (toChars "cat") ∧ utf8Len (toChars "cat") ≤ 100 :=
  validate_ok_raw_utf8_bounds (toChars "cat") (toChars "cat") rfl

/-- C1 (counterexample): the raw input `***` is accepted, yet its
canonical key is the empty string, whose length is not in [3, 100]. -/
theorem validate_accepts_star_only_input :
    validate_transform_tag (toChars "***") = .ok [] ∧
    ¬(3 ≤ utf8Len ([] : Str) ∧ utf8Len ([] : Str) ≤ 100) :=
  ⟨rfl, by decide⟩

/-- C2 (amended): a canonical key produced by the Normalizer never
contains a literal `*` (nor `%`): `validate_transform_tag` strips both,
so the Escaper case the claim describes cannot arise in the pipeline. -/
theorem canonical_key_no_wildcards (raw k : Str)
    (h : validate_transform_tag raw = .ok k) : '*' ∉ k ∧ '%' ∉ k := by
  unfold validate_transform_tag at h
  by_cases h1 : utf8Len raw > 100
  · rw [if_pos h1] at h
    exact absurd h (by simp)
  · rw [if_neg h1] at h
    by_cases h2 : utf8Len raw < 3
    · rw [if_pos h2] at h
      exact absurd h (by simp)
    · rw [if_neg h2] at h
      injection h with hk
      subst hk
      constructor
      · intro hmem
        have hmem' := List.mem_of_mem_filter hmem
        rcases mem_of_mem_rustReplace _ _ _ _ hmem' with hx | hx
        · exact not_mem_rustReplace_single '*' [] _ (by simp) hx
        · simp at hx
      · intro hmem
        have hmem' := List.mem_of_mem_filter hmem
        exact not_mem_rustReplace_single '%' [] _ (by simp) hmem'

/-- C2 (witness): the accepted raw input `a*b` yields a canonical key
without `*` or `%`. -/
theorem canonical_key_no_wildcards_witness :
    '*' ∉ toChars "ab" ∧ '%' ∉ toChars "ab" :=
  canonical_key_no_wildcards (toChars "a*b") (toChars "ab") rfl

/-- C2 (counterexample): for the key `a*b` (a hypothetical canonical
key containing a literal `*`), the search pattern built by `get_tags`,
`escape_like (key ++ "*")`, is `a%b%`: the literal `*` has become the
backend wildcard `%` and no literal `*` survives anywhere in the
pattern, so it is NOT preserved as literal content. -/
theorem escape_like_turns_star_into_wildcard :
    escape_like (toChars "a*b" ++ ['*']) = toChars "a%b%" ∧
    '*' ∉ escape_like (toChars "a*b" ++ ['*']) := by
  constructor
  · rfl
  · decide

/-- C3 (counterexample): the raw input `  Fôo%Bar*` normalizes to
`fôobar`, not to `foobar` as the claim states: lowercasing does not
remove the circumflex. -/
theorem normalization_example_not_foobar :
    validate_transform_tag (toChars "  Fôo%Bar*") = .ok (toChars "fôobar") ∧
    toChars "fôobar" ≠ toChars "foobar" :=
  ⟨rfl, by decide⟩

/-- C3 (amended): the raw input `  Fôo%Bar*` (NFC-invariant, since its
`ô` is precomposed) normalizes to the canonical key `fôobar`, of UTF-8
length 7 (6 characters). -/
theorem normalization_example :
    validate_transform_tag (toChars "  Fôo%Bar*") = .ok (toChars "fôobar") ∧
    utf8Len (toChars "fôobar") = 7 ∧
    (toChars "fôobar").length = 6 ∧
    rustNfc (toChars "  Fôo%Bar*") = toChars "  Fôo%Bar*" :=
  ⟨rfl, by decide, by decide, rfl⟩

/-- C9: the final `replace("\\*", "*")` of `escape_like` is an
identity: after `replace("*", "%")` no `*` remains in the string, so
the two-character pattern backslash-star never matches, and
`escape_like` equals the composition of only its first three
replacements. -/
theorem escape_like_eq_first_three (s : Str) :
    '*' ∉ rustReplace ['*'] ['%']
        (rustReplace ['_'] ['\\', '_'] (rustReplace ['%'] ['\\', '%'] s)) ∧
    escape_like s =
      rustReplace ['*'] ['%']
        (rustReplace ['_'] ['\\', '_'] (rustReplace ['%'] ['\\', '%'] s)) := by
  have hstar : '*' ∉ rustReplace ['*'] ['%']
      (rustReplace ['_'] ['\\', '_'] (rustReplace ['%'] ['\\', '%'] s)) :=
    not_mem_rustReplace_single '*' ['%'] _ (by decide)
  refine ⟨hstar, ?_⟩
  unfold escape_like
  exact rustReplace_pair_id '\\' '*' ['*'] _ hstar

/-- C10: the Normalizer's length bounds are measured in UTF-8 bytes,
not characters: acceptance is exactly `3 ≤ bytes ≤ 100`; the
two-character input `ôô` (4 bytes) is accepted, and a 51-character
input of `ô`s (102 bytes) is rejected. -/
theorem length_bounds_are_utf8_bytes :
    (∀ s : Str, isAccepted s = decide (3 ≤ utf8Len s ∧ utf8Len s ≤ 100)) ∧
    ((toChars "ôô").length = 2 ∧ utf8Len (toChars "ôô") = 4 ∧
      isAccepted (toChars "ôô") = true) ∧
    ((List.replicate 51 'ô').length = 51 ∧ utf8Len (List.replicate 51 'ô') = 102 ∧
      isAccepted (List.replicate 51 'ô') = false) := by
  refine ⟨?_, ⟨by decide, by decide, rfl⟩, ⟨by decide, by decide, rfl⟩⟩
  intro s
  unfold isAccepted validate_transform_tag
  by_cases h1 : utf8Len s > 100
  · rw [if_pos h1]
    simp only []
    rw [eq_comm, decide_eq_false_iff_not]
    omega
  · rw [if_neg h1]
    by_cases h2 : utf8Len s < 3
    · rw [if_pos h2]
      rw [eq_comm, decide_eq_false_iff_not]
      omega
    · rw [if_neg h2]
      rw [eq_comm, decide_eq_true_eq]
      omega

/-- C4: Tier B is consulted only when Tier A returns zero rows: with a
nonempty Tier-A result, `get_tags` returns exactly the Tier-A rows and
never issues the Tier-B query; whenever the Tier-B query was issued,
Tier A had returned zero rows; and with zero Tier-A matches and a
Tier-B result, the final record sequence equals the Tier-B result
exactly. -/
theorem two_tier_lookup (db : DB) (k : Str) :
    (∀ rows, db.setTimeout = .ok () → db.tierA (escape_like (k ++ ['*'])) = .ok rows →
        rows ≠ [] →
        get_tags db k = (.ok rows, [.setTimeout, .tierA (escape_like (k ++ ['*']))])) ∧
    (∀ r qs, get_tags db k = (r, qs) → Query.tierB k ∈ qs →
        db.tierA (escape_like (k ++ ['*'])) = .ok []) ∧
    (∀ rowsB, db.setTimeout = .ok () → db.tierA (escape_like (k ++ ['*'])) = .ok [] →
        db.tierB k = .ok rowsB →
        get_tags db k = (.ok rowsB,
          [.setTimeout, .tierA (escape_like (k ++ ['*'])), .tierB k])) := by
  refine ⟨?_, ?_, ?_⟩
  · intro rows hst hA hne
    have hlen : rows.length > 0 := by
      cases rows with
      | nil => exact absurd rfl hne
      | cons a l => simp
    simp only [get_tags, hst, hA]
    rw [if_pos hlen]
  · intro r qs hg hmem
    cases hst : db.setTimeout with
    | error e =>
      simp only [get_tags, hst, Prod.mk.injEq] at hg
      obtain ⟨-, hqs⟩ := hg
      subst hqs
      simp at hmem
    | ok u =>
      cases hA : db.tierA (escape_like (k ++ ['*'])) with
      | error e =>
        simp only [get_tags, hst, hA, Prod.mk.injEq] at hg
        obtain ⟨-, hqs⟩ := hg
        subst hqs
        simp at hmem
      | ok rows =>
        by_cases hlen : rows.length > 0
        · simp only [get_tags, hst, hA] at hg
          rw [if_pos hlen] at hg
          rw [Prod.mk.injEq] at hg
          obtain ⟨-, hqs⟩ := hg
          subst hqs
          simp at hmem
        · have hnil : rows = [] := List.length_eq_zero.mp (by omega)
          rw [hnil]
  · intro rowsB hst hA hB
    simp [get_tags, hst, hA, hB]

/-- C4 (witness): with Tier A empty and Tier B holding `tagStub`, the
lookup for `cat` returns the Tier-B rows and issues both queries. -/
theorem two_tier_lookup_witness :
    get_tags dbTierB (toChars "cat") =
      (.ok [tagStub],
        [.setTimeout, .tierA (escape_like (toChars "cat" ++ ['*'])),
         .tierB (toChars "cat")]) :=
  (two_tier_lookup dbTierB (toChars "cat")).2.2 [tagStub] rfl rfl rfl

/-- C5: a raw input whose UTF-8 length is below 3 or above 100 is
rejected with `BadRequest` before any cache read, pool checkout, store
query or cache write, and the cache is left unchanged. -/
theorem bad_length_no_access (env : Env) (raw : Str)
    (h : utf8Len raw < 3 ∨ 100 < utf8Len raw) :
    autocomplete env raw =
      { outcome := .error .BadRequest, cacheReads := [], poolGets := 0,
        queries := [], cacheWrites := [], cacheAfter := env.cache } := by
  have hv : validate_transform_tag raw = .error .BadRequest := by
    unfold validate_transform_tag
    rcases h with h | h
    · rw [if_neg (by omega), if_pos h]
    · rw [if_pos h]
  simp only [autocomplete, hv]

/-- C5 (witness): the two-byte raw input `ab` is rejected with no cache
or store activity. -/
theorem bad_length_no_access_witness :
    autocomplete envStub (toChars "ab") =
      { outcome := .error .BadRequest, cacheReads := [], poolGets := 0,
        queries := [], cacheWrites := [], cacheAfter := envStub.cache } :=
  bad_length_no_access envStub (toChars "ab") (Or.inl (by decide))

/-- C6: on a cache hit the resolver answers with the cached body,
attempts no pool checkout, issues no query, writes nothing to the
cache, and leaves the cache unchanged. -/
theorem cache_hit_no_store (env : Env) (raw key body : Str)
    (hv : validate_transform_tag raw = .ok key) (hc : env.cache key = some body) :
    autocomplete env raw =
      { outcome := .ok body, cacheReads := [key], poolGets := 0, queries := [],
        cacheWrites := [], cacheAfter := env.cache } := by
  simp only [autocomplete, hv, hc]

/-- C6 (witness): with `cat ↦ [1]` cached, resolving `cat` returns the
cached body with no store access. -/
theorem cache_hit_no_store_witness :
    autocomplete envHit (toChars "cat") =
      { outcome := .ok (toChars "[1]"), cacheReads := [toChars "cat"],
        poolGets := 0, queries := [], cacheWrites := [],
        cacheAfter := envHit.cache } :=
  cache_hit_no_store envHit (toChars "cat") (toChars "cat") (toChars "[1]") rfl rfl

/-- C7: when serialization of a successful lookup fails, the resolver
substitutes the body `[]`, still completes as a success, caches that
substituted body under the canonical key and returns it. -/
theorem serialize_failure_degrades (env : Env) (raw key : Str) (results : List Tag)
    (qs : List Query) (hv : validate_transform_tag raw = .ok key)
    (hc : env.cache key = none) (hp : env.pool = .ok ())
    (hq : get_tags env.db key = (.ok results, qs))
    (hs : env.serialize results = none) :
    (autocomplete env raw).outcome = .ok (toChars "[]") ∧
    (autocomplete env raw).cacheWrites = [(key, toChars "[]")] ∧
    (autocomplete env raw).cacheAfter key = some (toChars "[]") := by
  have h1 : autocomplete env raw =
      { outcome := .ok ((env.serialize results).getD (toChars "[]")),
        cacheReads := [key], poolGets := 1, queries := qs,
        cacheWrites := [(key, (env.serialize results).getD (toChars "[]"))],
        cacheAfter := fun k =>
          if k = key then some ((env.serialize results).getD (toChars "[]"))
          else env.cache k } := by
    simp only [autocomplete, hv, hc, hp, hq]
  rw [h1]
  simp [hs]

/-- C7 (witness): with a failing serializer, resolving `cat` succeeds
with body `[]` and caches `[]` under `cat`. -/
theorem serialize_failure_degrades_witness :
    (autocomplete envSerFail (toChars "cat")).outcome = .ok (toChars "[]") ∧
    (autocomplete envSerFail (toChars "cat")).cacheWrites =
      [(toChars "cat", toChars "[]")] ∧
    (autocomplete envSerFail (toChars "cat")).cacheAfter (toChars "cat") =
      some (toChars "[]") :=
  serialize_failure_degrades envSerFail (toChars "cat") (toChars "cat") [] _
    rfl rfl rfl rfl rfl

/-- C8: if a resolution succeeds with body `b`, resolving the same raw
input again against the resulting cache yields the byte-identical body
`b` from the cache, with no store query and no pool checkout. -/
theorem resolve_idempotent (env : Env) (raw b : Str)
    (h : (autocomplete env raw).outcome = .ok b) :
    (autocomplete { env with cache := (autocomplete env raw).cacheAfter } raw).outcome
        = .ok b ∧
    (autocomplete { env with cache := (autocomplete env raw).cacheAfter } raw).queries
        = [] ∧
    (autocomplete { env with cache := (autocomplete env raw).cacheAfter } raw).poolGets
        = 0 := by
  cases hv : validate_transform_tag raw with
  | error e =>
    simp only [autocomplete, hv] at h
    exact absurd h (by simp)
  | ok key =>
    cases hc : env.cache key with
    | some body =>
      have h1 : autocomplete env raw =
          { outcome := .ok body, cacheReads := [key], poolGets := 0, queries := [],
            cacheWrites := [], cacheAfter := env.cache } := by
        simp only [autocomplete, hv, hc]
      simp only [h1, Except.ok.injEq] at h
      subst h
      simp only [h1]
      simp
    | none =>
      cases hp : env.pool with
      | error e =>
        simp only [autocomplete, hv, hc, hp] at h
        exact absurd h (by simp)
      | ok u =>
        rcases hq : get_tags env.db key with ⟨res, qs⟩
        cases res with
        | error e =>
          simp only [autocomplete, hv, hc, hp, hq] at h
          exact absurd h (by simp)
        | ok results =>
          have h1 : autocomplete env raw =
              { outcome := .ok ((env.serialize results).getD (toChars "[]")),
                cacheReads := [key], poolGets := 1, queries := qs,
                cacheWrites := [(key, (env.serialize results).getD (toChars "[]"))],
                cacheAfter := fun k =>
                  if k = key then some ((env.serialize results).getD (toChars "[]"))
                  else env.cache k } := by
            simp only [autocomplete, hv, hc, hp, hq]
          simp only [h1, Except.ok.injEq] at h
          subst h
          simp only [h1]
          simp [autocomplete, hv]

/-- C8 (witness): resolving `cat` twice in a row against `envStub`
yields the body `[]` from the cache the second time, with no query and
no pool checkout. -/
theorem resolve_idempotent_witness :
    (autocomplete
        { envStub with cache := (autocomplete envStub (toChars "cat")).cacheAfter }
        (toChars "cat")).outcome = .ok (toChars "[]") ∧
    (autocomplete
        { envStub with cache := (autocomplete envStub (toChars "cat")).cacheAfter }
        (toChars "cat")).queries = [] ∧
    (autocomplete
        { envStub with cache := (autocomplete envStub (toChars "cat")).cacheAfter }
        (toChars "cat")).poolGets = 0 :=
  resolve_idempotent envStub (toChars "cat") (toChars "[]") rfl
